import Mathlib

/-!
Verification of the talkboy record-and-replay HTTP proxy core: a shallow
embedding of the archive codec (`src/archive/convert.rs`), the session
recorder (`src/archive/store.rs`), the archive loader
(`src/archive/load.rs`) and the playback matcher (`src/archive/mod.rs`),
together with theorems settling the specification claims about them.

Representation conventions:
* a Rust byte buffer (`Vec<u8>`) is a `List Nat` whose elements are byte
  values, with explicit `< 256` bounds where the arithmetic needs them;
* a Rust `String` is represented by its UTF-8 byte sequence, also a
  `List Nat` (so `String::as_bytes` is the identity and
  `String::from_utf8` is a validity test on the same list);
* fallible operations return `Option` or `Except`; a Rust panic
  (`unwrap`, `expect`) is modelled as `none`.
-/

namespace Talkboy

/-- Byte strings: Rust `Vec<u8>` buffers and the UTF-8 bytes of Rust
`String`s are both modelled as lists of byte values. -/
abbrev RStr := List Nat

/-- Byte list of an ASCII Lean string literal, used to write concrete
constants and witnesses. -/
def asciiStr (s : String) : RStr := s.toList.map Char.toNat

/-! ## Base64 (model of the `base64` crate, standard alphabet with padding) -/

/-- Byte value of the base64 alphabet character for a sextet `n < 64`. -/
def b64Char (n : Nat) : Nat :=
  if n < 26 then 65 + n
  else if n < 52 then 97 + (n - 26)
  else if n < 62 then 48 + (n - 52)
  else if n = 62 then 43
  else 47

/-- Sextet value of an alphabet byte, `none` for bytes outside the
base64 alphabet (including the padding byte 61). -/
def b64Val (c : Nat) : Option Nat :=
  if 65 ≤ c ∧ c ≤ 90 then some (c - 65)
  else if 97 ≤ c ∧ c ≤ 122 then some (c - 97 + 26)
  else if 48 ≤ c ∧ c ≤ 57 then some (c - 48 + 52)
  else if c = 43 then some 62
  else if c = 47 then some 63
  else none

/-- Base64 encoding of a byte list (`base64::encode`): groups of three
bytes become four alphabet bytes; a trailing group of one or two bytes is
padded with `=` (byte 61). -/
def base64Encode : List Nat → List Nat
  | [] => []
  | [a] => [b64Char (a / 4), b64Char (a % 4 * 16), 61, 61]
  | [a, b] => [b64Char (a / 4), b64Char (a % 4 * 16 + b / 16), b64Char (b % 16 * 4), 61]
  | a :: b :: c :: rest =>
    b64Char (a / 4) :: b64Char (a % 4 * 16 + b / 16) :: b64Char (b % 16 * 4 + c / 64)
      :: b64Char (c % 64) :: base64Encode rest

/-- Base64 decoding (`base64::decode`): consumes four bytes at a time,
accepting `=` padding only at the end of the input. -/
def base64Decode : List Nat → Option (List Nat)
  | [] => some []
  | a :: b :: c :: d :: rest =>
    if c = 61 ∧ d = 61 ∧ rest = [] then
      match b64Val a, b64Val b with
      | some x, some y => some [x * 4 + y / 16]
      | _, _ => none
    else if d = 61 ∧ rest = [] then
      match b64Val a, b64Val b, b64Val c with
      | some x, some y, some z => some [x * 4 + y / 16, y % 16 * 16 + z / 4]
      | _, _, _ => none
    else
      match b64Val a, b64Val b, b64Val c, b64Val d, base64Decode rest with
      | some x, some y, some z, some w, some r =>
        some ((x * 4 + y / 16) :: (y % 16 * 16 + z / 4) :: (z % 4 * 64 + w) :: r)
      | _, _, _, _, _ => none
  | _ => none

theorem b64Val_b64Char : ∀ n, n < 64 → b64Val (b64Char n) = some n := by decide

theorem b64Char_ne_61 (n : Nat) : b64Char n ≠ 61 := by
  unfold b64Char
  split <;> try omega
  split <;> try omega
  split <;> try omega
  split <;> omega

/-- Decoding inverts encoding on byte lists. -/
theorem base64Decode_base64Encode :
    ∀ (l : List Nat), (∀ x ∈ l, x < 256) → base64Decode (base64Encode l) = some l
  | [], _ => rfl
  | [a], h => by
    have ha : a < 256 := h a (by simp)
    simp only [base64Encode, base64Decode]
    rw [if_pos (by simp)]
    rw [b64Val_b64Char _ (by omega), b64Val_b64Char _ (by omega)]
    simp
    omega
  | [a, b], h => by
    have ha : a < 256 := h a (by simp)
    have hb : b < 256 := h b (by simp)
    simp only [base64Encode, base64Decode]
    rw [if_neg (by simp [b64Char_ne_61]), if_pos (by simp)]
    rw [b64Val_b64Char _ (by omega), b64Val_b64Char _ (by omega),
      b64Val_b64Char _ (by omega)]
    simp
    omega
  | a :: b :: c :: rest, h => by
    have ha : a < 256 := h a (by simp)
    have hb : b < 256 := h b (by simp)
    have hc : c < 256 := h c (by simp)
    have ih := base64Decode_base64Encode rest (by
      intro x hx
      exact h x (by simp at hx ⊢; tauto))
    simp only [base64Encode, base64Decode]
    rw [if_neg (by simp [b64Char_ne_61]), if_neg (by simp [b64Char_ne_61])]
    rw [b64Val_b64Char _ (by omega), b64Val_b64Char _ (by omega),
      b64Val_b64Char _ (by omega), b64Val_b64Char _ (by omega), ih]
    simp
    omega

/-! ## UTF-8 validity (model of Rust `String::from_utf8` success) -/

/-- Continuation byte test: `0x80 ≤ b ≤ 0xBF`. -/
def isUtf8Cont (b : Nat) : Bool := 128 ≤ b && b ≤ 191

/-- Validity of a byte list as UTF-8, following the table Rust core uses
for `str` validation (shortest-form, surrogates excluded, max U+10FFFF). -/
def validUtf8 : List Nat → Bool
  | [] => true
  | b :: rest =>
    if b ≤ 127 then validUtf8 rest
    else if 194 ≤ b ∧ b ≤ 223 then
      match rest with
      | b1 :: rest1 => isUtf8Cont b1 && validUtf8 rest1
      | [] => false
    else if b = 224 then
      match rest with
      | b1 :: b2 :: rest2 =>
        (160 ≤ b1 && b1 ≤ 191) && isUtf8Cont b2 && validUtf8 rest2
      | _ => false
    else if 225 ≤ b ∧ b ≤ 236 then
      match rest with
      | b1 :: b2 :: rest2 => isUtf8Cont b1 && isUtf8Cont b2 && validUtf8 rest2
      | _ => false
    else if b = 237 then
      match rest with
      | b1 :: b2 :: rest2 =>
        (128 ≤ b1 && b1 ≤ 159) && isUtf8Cont b2 && validUtf8 rest2
      | _ => false
    else if 238 ≤ b ∧ b ≤ 239 then
      match rest with
      | b1 :: b2 :: rest2 => isUtf8Cont b1 && isUtf8Cont b2 && validUtf8 rest2
      | _ => false
    else if b = 240 then
      match rest with
      | b1 :: b2 :: b3 :: rest3 =>
        (144 ≤ b1 && b1 ≤ 191) && isUtf8Cont b2 && isUtf8Cont b3 && validUtf8 rest3
      | _ => false
    else if 241 ≤ b ∧ b ≤ 243 then
      match rest with
      | b1 :: b2 :: b3 :: rest3 =>
        isUtf8Cont b1 && isUtf8Cont b2 && isUtf8Cont b3 && validUtf8 rest3
      | _ => false
    else if b = 244 then
      match rest with
      | b1 :: b2 :: b3 :: rest3 =>
        (128 ≤ b1 && b1 ≤ 143) && isUtf8Cont b2 && isUtf8Cont b3 && validUtf8 rest3
      | _ => false
    else false

/-- Text/binary discrimination shared by header and body conversions
(`maybe_encode` in `convert.rs`, textually duplicated as `body_text` in
`store.rs`): valid UTF-8 is kept as text, anything else is base64-encoded
and flagged. -/
def maybe_encode (b : List Nat) : RStr × Bool :=
  if validUtf8 b then (b, false) else (base64Encode b, true)

/-! ## SHA-256 (model of the `sha2` crate digest used for fingerprints) -/

/-- Reduction to a 32-bit word. -/
def u32 (x : Nat) : Nat := x % 4294967296

/-- Right rotation of a 32-bit word by `n` bits. -/
def rotr (n x : Nat) : Nat := x / 2 ^ n + x % 2 ^ n * 2 ^ (32 - n)

def bigSigma0 (x : Nat) : Nat := rotr 2 x ^^^ rotr 13 x ^^^ rotr 22 x

def bigSigma1 (x : Nat) : Nat := rotr 6 x ^^^ rotr 11 x ^^^ rotr 25 x

def smallSigma0 (x : Nat) : Nat := rotr 7 x ^^^ rotr 18 x ^^^ x / 8

def smallSigma1 (x : Nat) : Nat := rotr 17 x ^^^ rotr 19 x ^^^ x / 1024

def chFun (x y z : Nat) : Nat := x &&& y ^^^ ((x ^^^ 4294967295) &&& z)

def majFun (x y z : Nat) : Nat := x &&& y ^^^ x &&& z ^^^ y &&& z

def sha256K : List Nat :=
  [1116352408, 1899447441, 3049323471, 3921009573, 961987163, 1508970993,
   2453635748, 2870763221, 3624381080, 310598401, 607225278, 1426881987,
   1925078388, 2162078206, 2614888103, 3248222580, 3835390401, 4022224774,
   264347078, 604807628, 770255983, 1249150122, 1555081692, 1996064986,
   2554220882, 2821834349, 2952996808, 3210313671, 3336571891, 3584528711,
   113926993, 338241895, 666307205, 773529912, 1294757372, 1396182291,
   1695183700, 1986661051, 2177026350, 2456956037, 2730485921, 2820302411,
   3259730800, 3345764771, 3516065817, 3600352804, 4094571909, 275423344,
   430227734, 506948616, 659060556, 883997877, 958139571, 1322822218,
   1537002063, 1747873779, 1955562222, 2024104815, 2227730452, 2361852424,
   2428436474, 2756734187, 3204031479, 3329325298]

def sha256H0 : List Nat :=
  [1779033703, 3144134277, 1013904242, 2773480762,
   1359893119, 2600822924, 528734635, 1541459225]

/-- Big-endian 32-bit words of a block of bytes. -/
def words32BE : List Nat → List Nat
  | b0 :: b1 :: b2 :: b3 :: rest =>
    (b0 * 16777216 + b1 * 65536 + b2 * 256 + b3) :: words32BE rest
  | _ => []

/-- Extend the message schedule by `n` further words; the word list is
kept newest-first, so indices `i - 2`, `i - 7`, `i - 15`, `i - 16` of the
RFC recurrence are positions 1, 6, 14, 15. -/
def extendScheduleRev : Nat → List Nat → List Nat
  | 0, w => w
  | n + 1, w =>
    let v := u32 (smallSigma1 (w.getD 1 0) + w.getD 6 0 + smallSigma0 (w.getD 14 0) +
      w.getD 15 0)
    extendScheduleRev n (v :: w)

/-- One compression round; the state is the eight working variables. -/
def sha256Round (st : List Nat) (kw : Nat × Nat) : List Nat :=
  match st with
  | [a, b, c, d, e, f, g, h] =>
    let t1 := u32 (h + bigSigma1 e + chFun e f g + kw.1 + kw.2)
    let t2 := u32 (bigSigma0 a + majFun a b c)
    [u32 (t1 + t2), a, b, c, u32 (d + t1), e, f, g]
  | other => other

/-- Compression of one 64-byte block into the hash state. -/
def sha256Compress (h : List Nat) (block : List Nat) : List Nat :=
  let w := (extendScheduleRev 48 (words32BE block).reverse).reverse
  let st := (w.zip sha256K).foldl sha256Round h
  (h.zip st).map (fun p => u32 (p.1 + p.2))

/-- Split the padded message into 64-byte blocks (fuel-driven so that it
reduces in the kernel; the fuel is the list length, always sufficient). -/
def chunks64Go : Nat → List Nat → List (List Nat)
  | _, [] => []
  | 0, _ :: _ => []
  | fuel + 1, b :: rest => (b :: rest).take 64 :: chunks64Go fuel ((b :: rest).drop 64)

/-- Split the padded message into 64-byte blocks. -/
def chunks64 (l : List Nat) : List (List Nat) := chunks64Go l.length l

/-- Big-endian bytes of a 64-bit length. -/
def be64 (n : Nat) : List Nat :=
  [n / 2 ^ 56 % 256, n / 2 ^ 48 % 256, n / 2 ^ 40 % 256, n / 2 ^ 32 % 256,
   n / 2 ^ 24 % 256, n / 2 ^ 16 % 256, n / 2 ^ 8 % 256, n % 256]

/-- Big-endian bytes of a 32-bit word. -/
def be32 (n : Nat) : List Nat :=
  [n / 16777216 % 256, n / 65536 % 256, n / 256 % 256, n % 256]

/-- SHA-256 padding: a 0x80 byte, zeros to 56 mod 64, then the bit length. -/
def sha256Pad (msg : List Nat) : List Nat :=
  msg ++ 128 :: List.replicate ((119 - msg.length % 64) % 64) 0 ++ be64 (msg.length * 8)

/-- SHA-256 digest of a byte list, as 32 bytes. -/
def sha256Bytes (msg : List Nat) : List Nat :=
  ((chunks64 (sha256Pad msg)).foldl sha256Compress sha256H0).foldr
    (fun wrd acc => be32 wrd ++ acc) []

/-- Byte value of the lowercase hex digit for `n < 16`. -/
def hexDigit (n : Nat) : Nat := if n < 10 then 48 + n else 87 + n

/-- Lowercase hex rendering of a byte list (the `format` with `x` of a
digest in `record_request`). -/
def toLowerHex (bytes : List Nat) : RStr :=
  bytes.foldr (fun b acc => hexDigit (b / 16) :: hexDigit (b % 16) :: acc) []

/-- Lowercase-hex SHA-256 digest of a byte list. -/
def sha256Hex (msg : List Nat) : RStr := toLowerHex (sha256Bytes msg)

/-- Test vector pinning the SHA-256 embedding to the standard digest. -/
theorem sha256Hex_abc_vector : sha256Hex (asciiStr "abc") =
    asciiStr "ba7816bf8f01cfea414140de5dae2223b00361a396177a9cb410ff61f20015ad" := by decide

/-! ## Fragments of the hyper / http crates used by the archive code -/

/-- Visible-ASCII test used by `HeaderValue::to_str` in the http crate:
bytes 32..126 and horizontal tab. -/
def is_visible_ascii (b : Nat) : Bool := (32 ≤ b && b < 127) || b == 9

/-- Model of `HeaderValue::to_str`: succeeds (with the same bytes) iff
every byte is visible ASCII; `none` models the `Err` case. -/
def headerValueToStr (v : RStr) : Option RStr :=
  if v.all is_visible_ascii then some v else none

/-- Model of a hyper `HeaderMap` in iteration order; names are stored
lowercase, as hyper normalizes them. -/
abbrev HeaderPairs := List (RStr × RStr)

/-- First value recorded under a name (`HeaderMap::get`). -/
def getHeader (m : HeaderPairs) (name : RStr) : Option RStr :=
  (m.find? (fun p => p.1 == name)).map (fun p => p.2)

/-- All values recorded under a name (`HeaderMap::get_all`). -/
def getAllHeaders (m : HeaderPairs) (name : RStr) : List RStr :=
  (m.filter (fun p => p.1 == name)).map (fun p => p.2)

/-- HTTP versions supported by hyper 0.12 as used here. -/
inductive HttpVer
  | http09
  | http10
  | http11
  | http2
deriving DecidableEq

/-- Byte-level ASCII uppercasing, modelling Rust `str::to_uppercase` (whose
non-ASCII case mappings never produce the ASCII letters these callers
compare against). -/
def ascii_to_uppercase (s : RStr) : RStr :=
  s.map (fun b => if 97 ≤ b ∧ b ≤ 122 then b - 32 else b)

/-- Byte-level ASCII lowercasing, modelling Rust `str::to_lowercase`. -/
def ascii_to_lowercase (s : RStr) : RStr :=
  s.map (fun b => if 65 ≤ b ∧ b ≤ 90 then b + 32 else b)

/-- Token bytes accepted in method and header names by the http crate:
digits, letters, and the bytes of the fifteen extra token characters. -/
def isTokenByte (b : Nat) : Bool :=
  (48 ≤ b && b ≤ 57) || (65 ≤ b && b ≤ 90) || (97 ≤ b && b ≤ 122) ||
  b == 33 || b == 35 || b == 36 || b == 37 || b == 38 || b == 39 ||
  b == 42 || b == 43 || b == 45 || b == 46 || b == 94 || b == 95 ||
  b == 96 || b == 124 || b == 126

/-- Model of `Method::from_bytes`: a method is its (case-significant)
token byte string; fails on the empty string or non-token bytes. -/
def method_from_bytes (b : RStr) : Option RStr :=
  if b ≠ [] ∧ b.all isTokenByte then some b else none

/-- Header-name bytes accepted by `HeaderName::from_lowercase`: token
bytes excluding uppercase letters. -/
def isHeaderNameByteLower (b : Nat) : Bool := isTokenByte b && !(65 ≤ b && b ≤ 90)

/-- Model of the http crate `Uri`: optional scheme, optional authority,
optional path-and-query, each kept as its raw byte string. -/
structure RUri where
  scheme : Option RStr
  authority : Option RStr
  path_and_query : Option RStr
deriving DecidableEq

/-- Display rendering of a `Uri` (`format` of `head.uri`): scheme and
separator when present, then authority, then path and query. -/
def uriToString (u : RUri) : RStr :=
  (match u.scheme with
   | some s => s ++ asciiStr "://"
   | none => []) ++ u.authority.getD [] ++ u.path_and_query.getD []

/-- Model of `Uri::query`: the part of the path-and-query after the first
`?`, absent when there is no `?`. -/
def uriQuery (u : RUri) : Option RStr :=
  u.path_and_query.bind (fun pq =>
    if pq.contains 63 then some ((pq.dropWhile (fun b => b ≠ 63)).tail) else none)

/-- Split a byte list at the first occurrence of the byte sequence `pat`,
returning the pieces before and after it. -/
def splitFirstSeq (pat : List Nat) : List Nat → Option (List Nat × List Nat)
  | [] => if pat = [] then some ([], []) else none
  | c :: rest =>
    if pat.isPrefixOf (c :: rest) then some ([], (c :: rest).drop pat.length)
    else (splitFirstSeq pat rest).map (fun r => (c :: r.1, r.2))

/-- Model of `Uri::from_str` restricted to the absolute-form and
origin-form URIs this program produces: a scheme before `://`, then an
authority up to the first `/` or `?`, then the path and query; or a
path-and-query alone when the input starts with `/`. -/
def uriParse (s : RStr) : Option RUri :=
  match splitFirstSeq (asciiStr "://") s with
  | some (sch, rest) =>
    let auth := rest.takeWhile (fun b => b ≠ 47 ∧ b ≠ 63)
    let pq := rest.drop auth.length
    if sch = [] ∨ auth = [] then none
    else some ⟨some sch, some auth, if pq = [] then none else some pq⟩
  | none =>
    match s with
    | 47 :: _ => some ⟨none, none, some s⟩
    | _ => none

/-! ## Codec (`src/archive/convert.rs`) -/

/-- Codec errors (`ConversionError`). -/
inductive ConversionError
  | InvalidHttpVersion (s : RStr)
deriving DecidableEq

deriving instance DecidableEq for Except

/-- Archived header entry (`har::v1_2::Headers`). -/
structure HarHeader where
  name : RStr
  value : RStr
  comment : Option RStr
deriving DecidableEq

/-- Archived query-string entry (`har::v1_2::QueryString`). -/
structure QueryString where
  name : RStr
  value : RStr
  comment : Option RStr
deriving DecidableEq

/-- Archived request body (`har::v1_2::PostData`); `params` is always
absent in this program. -/
structure PostData where
  mime_type : RStr
  text : RStr
  params : Option Unit
  comment : Option RStr
deriving DecidableEq

/-- Archived response body (`har::v1_2::Content`). -/
structure Content where
  size : Int
  compression : Option Int
  mime_type : RStr
  text : Option RStr
  encoding : Option RStr
  comment : Option RStr
deriving DecidableEq

namespace Header

/-- `Header::har`: archive a header name and value; non-UTF-8 values are
base64-encoded and flagged with comment `base64`. -/
def har (key : RStr) (val : RStr) : HarHeader :=
  let e := maybe_encode val
  { name := key, value := e.1
    comment := if e.2 then some (asciiStr "base64") else none }

/-- `Header::hyper`: rebuild a live header from an archived entry; the
name is lowercased and revalidated, the value bytes are restored verbatim
(after base64 decoding when flagged). -/
def hyper (h : HarHeader) : Option (RStr × RStr) :=
  let lower := ascii_to_lowercase h.name
  if lower ≠ [] ∧ lower.all isHeaderNameByteLower then
    match h.comment with
    | some c =>
      if c = asciiStr "base64" then (base64Decode h.value).map (fun b => (lower, b))
      else some (lower, h.value)
    | none => some (lower, h.value)
  else none

end Header

namespace RequestBody

/-- `RequestBody::har`: empty bodies are not archived; otherwise the body
is stored as text or flagged base64. -/
def har (body : List Nat) (mime_type : RStr) : Option PostData :=
  if body = [] then none
  else
    let e := maybe_encode body
    some { mime_type, text := e.1, params := none
           comment := if e.2 then some (asciiStr "base64") else none }

/-- `RequestBody::bytes`: recover the body bytes and mime type from an
archived `PostData`. -/
def bytes (data : PostData) : Option (List Nat × RStr) :=
  let encoding := data.mime_type
  match data.comment with
  | some c =>
    if c = asciiStr "base64" then (base64Decode data.text).map (fun b => (b, encoding))
    else some (data.text, encoding)
  | none => some (data.text, encoding)

end RequestBody

namespace ResponseBody

/-- `ResponseBody::har`: archive a response body with its exact size; an
empty rendering stores no text. -/
def har (body : List Nat) (mime_type : RStr) : Content :=
  let size : Int := body.length
  let e := maybe_encode body
  { size, compression := none, mime_type
    text := if e.1 = [] then none else some e.1
    encoding := if e.2 then some (asciiStr "base64") else none
    comment := none }

/-- `ResponseBody::hyper`: rebuild the live body bytes and mime type from
an archived `Content`; absent text means an empty body. -/
def hyper (c : Content) : Option (List Nat × RStr) :=
  match c.text with
  | none => some ([], [])
  | some text =>
    let mime := c.mime_type
    match c.encoding with
    | some e =>
      if e = asciiStr "base64" then (base64Decode text).map (fun b => (b, mime))
      else some (text, mime)
    | none => some (text, mime)

end ResponseBody

namespace HttpVersion

/-- `HttpVersion::har`: render a hyper version as its HAR string. -/
def har : HttpVer → RStr
  | .http09 => asciiStr "HTTP/0.9"
  | .http10 => asciiStr "HTTP/1.0"
  | .http11 => asciiStr "HTTP/1.1"
  | .http2 => asciiStr "HTTP/2"

/-- `HttpVersion::hyper`: parse a HAR version string, uppercasing first;
unknown strings fail with `InvalidHttpVersion` carrying the input. -/
def hyper (v : RStr) : Except ConversionError HttpVer :=
  if ascii_to_uppercase v = asciiStr "HTTP/0.9" then .ok .http09
  else if ascii_to_uppercase v = asciiStr "HTTP/1.0" then .ok .http10
  else if ascii_to_uppercase v = asciiStr "HTTP/1.1" then .ok .http11
  else if ascii_to_uppercase v = asciiStr "HTTP/2" then .ok .http2
  else .error (.InvalidHttpVersion v)

end HttpVersion

/-- Split a byte list at every occurrence of `sep`, Rust
`str::split(char)` semantics: the empty input yields one empty piece. -/
def splitOnByte (sep : Nat) : List Nat → List (List Nat)
  | [] => [[]]
  | c :: rest =>
    let r := splitOnByte sep rest
    if c = sep then [] :: r
    else
      match r with
      | h :: t => (c :: h) :: t
      | [] => [[c]]

/-- Split a byte list at the first occurrence of `sep`, keeping whether a
separator was found. -/
def splitFirstAt (sep : Nat) : List Nat → List Nat × Option (List Nat)
  | [] => ([], none)
  | c :: rest =>
    if c = sep then ([], some rest)
    else
      let r := splitFirstAt sep rest
      (c :: r.1, r.2)

/-- Rust `str::splitn(2, char)`: one or two pieces. -/
def splitnTwo (sep : Nat) (l : List Nat) : List RStr :=
  match splitFirstAt sep l with
  | (k, none) => [k]
  | (k, some v) => [k, v]

/-- One `name=value` pair of `Query::har`: the piece before the first `=`
is the name; a missing value is the empty string. -/
def queryHarPair (pair : RStr) : Option QueryString :=
  match splitnTwo 61 pair with
  | [] => none
  | [k] => some { name := k, value := [], comment := none }
  | k :: v :: _ => some { name := k, value := v, comment := none }

namespace Query

/-- `Query::har`: an absent query yields no entries; otherwise the raw
query is split on `&` and each pair on its first `=`. -/
def har : Option RStr → List QueryString
  | none => []
  | some qs => (splitOnByte 38 qs).filterMap queryHarPair

end Query


/-! ## Session recorder (`src/archive/store.rs`) -/

/-- Decimal digit bytes of a natural number (`StatusCode::as_str` renders
the numeric code). -/
def natToDecStr (n : Nat) : RStr := (Nat.toDigits 10 n).map Char.toNat

/-- Decimal rendering of an integer. -/
def intToDecStr (i : Int) : RStr :=
  if i < 0 then 45 :: natToDecStr i.natAbs else natToDecStr i.toNat

/-- Modelled from the spec: the RFC3339 rendering of a start timestamp by
the external chrono crate; timestamps are modelled as epoch milliseconds
and the rendering as their decimal string, which no claim inspects. -/
def rfc3339Render (t : Int) : RStr := intToDecStr t

/-- Strip ASCII spaces from both ends (the cookie crate trims around
names, values and attributes). -/
def trimAscii (s : RStr) : RStr :=
  ((s.dropWhile (fun b => b = 32)).reverse.dropWhile (fun b => b = 32)).reverse

/-- Model of the external cookie crate `Cookie` value. -/
structure CrateCookie where
  name : RStr
  value : RStr
  path : Option RStr
  domain : Option RStr
  expires : Option RStr
  http_only : Option Bool
  secure : Option Bool
deriving DecidableEq

/-- One cookie attribute segment applied to a cookie under construction
(part of the cookie-crate parser model). -/
def cookieApplyAttr (c : CrateCookie) (seg : RStr) : CrateCookie :=
  match splitFirstAt 61 (trimAscii seg) with
  | (k, some v) =>
    let key := ascii_to_lowercase (trimAscii k)
    let val := trimAscii v
    if key = asciiStr "path" then { c with path := some val }
    else if key = asciiStr "domain" then { c with domain := some val }
    else if key = asciiStr "expires" then { c with expires := some val }
    else c
  | (k, none) =>
    let key := ascii_to_lowercase (trimAscii k)
    if key = asciiStr "secure" then { c with secure := some true }
    else if key = asciiStr "httponly" then { c with http_only := some true }
    else c

/-- Modelled from the external cookie crate: `Cookie::parse` requires a
leading `name=value` pair (failing otherwise, which the recorder turns
into a panic) and then applies attribute segments; the crate date
parsing of `expires` is modelled as keeping the raw attribute text, which
no claim inspects. -/
def cookieParse (s : RStr) : Option CrateCookie :=
  match splitOnByte 59 s with
  | [] => none
  | nv :: attrs =>
    match splitFirstAt 61 nv with
    | (_, none) => none
    | (n, some v) =>
      let name := trimAscii n
      if name = [] then none
      else
        some (attrs.foldl cookieApplyAttr
          { name, value := trimAscii v, path := none, domain := none, expires := none,
            http_only := none, secure := none })

/-- Archived cookie entry (`har::v1_2::Cookies`). -/
structure HarCookie where
  name : RStr
  value : RStr
  path : Option RStr
  domain : Option RStr
  expires : Option RStr
  http_only : Option Bool
  secure : Option Bool
  comment : Option RStr
deriving DecidableEq

/-- `cookie_to_har` (`store.rs`): repackage a parsed cookie. -/
def cookie_to_har (c : CrateCookie) : HarCookie :=
  { name := c.name, value := c.value, path := c.path, domain := c.domain,
    expires := c.expires, http_only := c.http_only, secure := c.secure, comment := none }

/-- Split a byte list at every occurrence of the byte sequence `pat`
(Rust `str::split(&str)`), fuel-driven so it reduces in the kernel. -/
def splitOnSeqGo (pat : List Nat) : Nat → List Nat → List (List Nat)
  | 0, l => [l]
  | fuel + 1, l =>
    match splitFirstSeq pat l with
    | none => [l]
    | some (pre, post) => pre :: splitOnSeqGo pat fuel post

/-- Split a byte list at every occurrence of the byte sequence `pat`. -/
def splitOnSeq (pat : List Nat) (l : List Nat) : List (List Nat) :=
  splitOnSeqGo pat l.length l

/-- Fallible iteration collecting every result (Rust iterator `map` with
a panicking closure followed by `collect`; the panic propagates as
`none`). -/
def traverseOption (f : α → Option β) : List α → Option (List β)
  | [] => some []
  | a :: rest =>
    match f a, traverseOption f rest with
    | some b, some bs => some (b :: bs)
    | _, _ => none

/-- `parse_request_cookies`: every `Cookie` header is read as a string
(panicking on non-visible-ASCII bytes), split on the two-byte separator,
and each piece parsed as a cookie (panicking on parse failure); panics
are modelled as `none`. -/
def parse_request_cookies (m : HeaderPairs) : Option (List HarCookie) :=
  match traverseOption headerValueToStr (getAllHeaders m (asciiStr "cookie")) with
  | none => none
  | some vals =>
    match traverseOption cookieParse ((vals.map (splitOnSeq (asciiStr "; "))).flatten) with
    | none => none
    | some cs => some (cs.map cookie_to_har)

/-- `parse_response_cookies`: one cookie per `Set-Cookie` header value,
with the same panic modelling. -/
def parse_response_cookies (m : HeaderPairs) : Option (List HarCookie) :=
  match traverseOption headerValueToStr (getAllHeaders m (asciiStr "set-cookie")) with
  | none => none
  | some vals =>
    match traverseOption cookieParse vals with
    | none => none
    | some cs => some (cs.map cookie_to_har)

/-- `headers_to_har` (`store.rs`): every header value is converted with
`HeaderValue::to_str` followed by `unwrap`; the panic on a value that is
not visible ASCII is modelled as `none`. -/
def headers_to_har (m : HeaderPairs) : Option (List HarHeader) :=
  traverseOption (fun p =>
    (headerValueToStr p.2).map (fun v => { name := p.1, value := v, comment := none })) m

/-- `string_for_http_version` (`store.rs`, textually identical to
`HttpVersion::har`). -/
def string_for_http_version : HttpVer → RStr := HttpVersion.har

/-- `query_string_to_har` (`store.rs`, textually identical to
`Query::har`). -/
def query_string_to_har : Option RStr → List QueryString := Query.har

/-- `body_text` (`store.rs`, textually identical to `maybe_encode`). -/
def body_text : List Nat → RStr × Bool := maybe_encode

/-- `request_body_to_har` (`store.rs`, textually identical to
`RequestBody::har`). -/
def request_body_to_har : List Nat → RStr → Option PostData := RequestBody.har

/-- `response_body_to_har` (`store.rs`, textually identical to
`ResponseBody::har`). -/
def response_body_to_har : List Nat → RStr → Content := ResponseBody.har

/-- Archived request (`har::v1_2::Request`). -/
structure Request where
  method : RStr
  url : RStr
  http_version : RStr
  cookies : List HarCookie
  headers : List HarHeader
  query_string : List QueryString
  post_data : Option PostData
  headers_size : Int
  body_size : Int
  comment : Option RStr
deriving DecidableEq

/-- Archived response (`har::v1_2::Response`). -/
structure Response where
  charles_status : Option Unit
  status : Int
  status_text : RStr
  http_version : RStr
  cookies : List HarCookie
  headers : List HarHeader
  content : Content
  redirect_url : RStr
  headers_size : Int
  body_size : Int
  comment : Option RStr
deriving DecidableEq

/-- Entry cache stanza, always empty in this program. -/
structure Cache where
  before_request : Option Unit
  after_request : Option Unit
deriving DecidableEq

/-- Entry timings; only `send`, `wait`, `receive` are set (to -1). -/
structure Timings where
  blocked : Option Int
  dns : Option Int
  connect : Option Int
  send : Int
  wait : Int
  receive : Int
  ssl : Option Int
  comment : Option RStr
deriving DecidableEq

/-- One archived transaction (`har::v1_2::Entries`). -/
structure Entries where
  pageref : Option RStr
  started_date_time : RStr
  time : Int
  request : Request
  response : Response
  cache : Cache
  timings : Timings
  server_ip_address : Option RStr
  connection : Option RStr
  comment : Option RStr
deriving DecidableEq

/-- Archive creator stanza. -/
structure Creator where
  name : RStr
  version : RStr
  comment : Option RStr
deriving DecidableEq

/-- Archive log (`har::v1_2::Log` inside `Har::V1_2`). -/
structure Log where
  version : RStr
  creator : Creator
  browser : Option Unit
  pages : Option Unit
  entries : List Entries
  comment : Option RStr
deriving DecidableEq

/-- Crate version string (`VERSION` in `main.rs`, from the build
environment; its exact contents matter to no claim). -/
def VERSION : RStr := asciiStr "0.1.0"

/-- The session recorder state (`HarSession`). -/
structure HarSession where
  har : Log
  start_date : Option Int
  request : Option Request
  response : Option Response
  request_hash : Option RStr
deriving DecidableEq

/-- `HarSession::new`: an empty v1.2 log and no transients. -/
def HarSession.new : HarSession :=
  { har := { version := asciiStr "1.2",
             creator := { name := asciiStr "Talkboy", version := VERSION, comment := none },
             browser := none, pages := none, entries := [], comment := none },
    start_date := none, request := none, response := none, request_hash := none }

/-- `HarSession::start_session`: capture the current timestamp (passed in
explicitly, modelling the ambient clock). -/
def start_session (s : HarSession) (now : Int) : HarSession := { s with start_date := some now }

/-- `HarSession::add_entry`. -/
def add_entry (s : HarSession) (e : Entries) : HarSession :=
  { s with har := { s.har with entries := s.har.entries ++ [e] } }

/-- Request head (`hyper::http::request::Parts`) as the recorder reads
it: method, URI, version and headers. -/
structure ReqParts where
  method : RStr
  uri : RUri
  version : HttpVer
  headers : HeaderPairs
deriving DecidableEq

/-- Response head (`hyper::http::response::Parts`). -/
structure ResParts where
  status : Nat
  version : HttpVer
  headers : HeaderPairs
deriving DecidableEq

/-- Content-Type extraction (`headers.get(CONTENT_TYPE)` followed by
`to_str` with `unwrap_or` of the empty string). -/
def contentTypeOf (m : HeaderPairs) : RStr :=
  match getHeader m (asciiStr "content-type") with
  | some v => (headerValueToStr v).getD []
  | none => []

/-- Location extraction for `redirect_url`, same `unwrap_or` shape. -/
def locationOf (m : HeaderPairs) : RStr :=
  match getHeader m (asciiStr "location") with
  | some v => (headerValueToStr v).getD []
  | none => []

/-- The fingerprint digest input of `record_request`: method, full URI
rendering, version string and body, concatenated in digest order. -/
def fingerprint_of (head : ReqParts) (body : List Nat) : RStr :=
  sha256Hex (head.method ++ uriToString head.uri ++
    string_for_http_version head.version ++ body)

/-- The archived request `record_request` constructs (inline in the
source) once cookie and header conversion have succeeded. -/
def recorded_request (head : ReqParts) (body : List Nat) (cookies : List HarCookie)
    (headers : List HarHeader) : Request :=
  { method := head.method, url := uriToString head.uri
    http_version := string_for_http_version head.version
    cookies, headers
    query_string := query_string_to_har (uriQuery head.uri)
    post_data := request_body_to_har body (contentTypeOf head.headers)
    headers_size := -1, body_size := -1
    comment := some (asciiStr "hash:" ++ fingerprint_of head body) }

/-- `HarSession::record_request`: digest method, full URI rendering,
version string and body into the fingerprint, and build the archived
request; cookie or header conversion panics are modelled as `none`. -/
def record_request (s : HarSession) (head : ReqParts) (body : List Nat) : Option HarSession :=
  match parse_request_cookies head.headers, headers_to_har head.headers with
  | some cookies, some headers =>
    some { s with
      request := some (recorded_request head body cookies headers)
      request_hash := some (fingerprint_of head body) }
  | _, _ => none

/-- The archived response `record_response` constructs (inline in the
source) once cookie and header conversion have succeeded. -/
def recorded_response (head : ResParts) (body : List Nat) (cookies : List HarCookie)
    (headers : List HarHeader) : Response :=
  { charles_status := none
    status := (head.status : Int)
    status_text := natToDecStr head.status
    http_version := string_for_http_version head.version
    cookies, headers
    content := response_body_to_har body (contentTypeOf head.headers)
    redirect_url := locationOf head.headers
    headers_size := -1, body_size := -1, comment := none }

/-- `HarSession::record_response`, with the same panic modelling. -/
def record_response (s : HarSession) (head : ResParts) (body : List Nat) : Option HarSession :=
  match parse_response_cookies head.headers, headers_to_har head.headers with
  | some cookies, some headers =>
    some { s with response := some (recorded_response head body cookies headers) }
  | _, _ => none

/-- Recorder state errors (`IncompleteEntryError`). -/
inductive IncompleteEntryError
  | MissingRequest
  | MissingResponse
  | MissingBoth
  | MissingStart
  | EmptySession
deriving DecidableEq

/-- Entry assembled by `HarSession::build` from the transients and the
clock. -/
def built_entry (req : Request) (res : Response) (sd now : Int) : Entries :=
  { pageref := none
    started_date_time := rfc3339Render sd
    time := now - sd
    request := req, response := res
    cache := { before_request := none, after_request := none }
    timings := { blocked := none, dns := none, connect := none,
                 send := -1, wait := -1, receive := -1, ssl := none,
                 comment := none }
    server_ip_address := none, connection := none, comment := none }

/-- `HarSession::build`: check the transients, then assemble the entry;
`take` clears the request and response. -/
def build (s : HarSession) (now : Int) :
    Except IncompleteEntryError (Entries × HarSession) :=
  match s.request, s.response with
  | none, none => .error .MissingBoth
  | none, some _ => .error .MissingRequest
  | some _, none => .error .MissingResponse
  | some req, some res =>
    match s.start_date with
    | none => .error .MissingStart
    | some sd =>
      .ok (built_entry req res sd now, { s with request := none, response := none })

/-- Outcome of `HarSession::commit`: a state error, the (unreachable)
panic of unwrapping a missing fingerprint, or the fingerprint together
with the updated session. -/
inductive CommitResult
  | failure (e : IncompleteEntryError)
  | panicked
  | success (hash : RStr) (s : HarSession)
deriving DecidableEq

/-- `HarSession::commit`: build the entry, append it, clear all
transients, and return the fingerprint taken from the session. -/
def commit (s : HarSession) (now : Int) : CommitResult :=
  match build s now with
  | .error e => .failure e
  | .ok (entry, s1) =>
    let s2a := add_entry s1 entry
    let s2 := { s2a with start_date := none, request := none, response := none }
    match s2.request_hash with
    | none => .panicked
    | some h => .success h { s2 with request_hash := none }

/-- Remove every occurrence of `pat` (Rust `str::replace(pat, empty)`),
fuel-driven so it reduces in the kernel. -/
def removeAllSubGo (pat : List Nat) : Nat → List Nat → List Nat
  | 0, l => l
  | _ + 1, [] => []
  | fuel + 1, c :: rest =>
    if pat.isPrefixOf (c :: rest) then removeAllSubGo pat fuel ((c :: rest).drop pat.length)
    else c :: removeAllSubGo pat fuel rest

/-- Remove every occurrence of `pat` from a byte list. -/
def removeAllSub (pat l : List Nat) : List Nat := removeAllSubGo pat l.length l

/-- `HarSession::file_hash`: the request comment of the first entry with
`hash:` removed, truncated to 8 characters; `none` iff the log is empty. -/
def file_hash (s : HarSession) : Option RStr :=
  s.har.entries.head?.map (fun e =>
    match e.request.comment with
    | some h => (removeAllSub (asciiStr "hash:") h).take 8
    | none => [])

/-- ASCII word character test (the regex crate POSIX class `word`:
letters, digits, underscore). -/
def isWordCharAscii (c : Char) : Bool := c.isAlpha || c.isDigit || c = '_'

/-- UTF-8 byte size of a character (`str::len` counts bytes). -/
def utf8Size (c : Char) : Nat :=
  if c.toNat < 128 then 1
  else if c.toNat < 2048 then 2
  else if c.toNat < 65536 then 3
  else 4

/-- `normalize_path`: replace every character that is neither a word
character nor `.` with `-`; truncate to the first 20 characters when the
byte length of the result exceeds 20. -/
def normalize_path (s : List Char) : List Char :=
  let normalized := s.map (fun c => if isWordCharAscii c || c = '.' then c else '-')
  if 20 < (normalized.map utf8Size).sum then normalized.take 20 else normalized

/-- `HarSession::write_to_dir`: fail with `EmptySession` on an empty log
(writing nothing); otherwise produce the file name
`normalized.fp8.json` and the serialized log (the serde JSON rendering,
an external crate, is modelled as the log itself). -/
def write_to_dir (s : HarSession) (base_name : List Char) :
    Except IncompleteEntryError (List Char × Log) :=
  match file_hash s with
  | none => .error .EmptySession
  | some hash =>
    .ok ((normalize_path base_name ++ ('.' :: hash.map Char.ofNat)) ++ ".json".toList,
      s.har)

/-! ## Playback matcher (`src/archive/mod.rs`) -/

/-- Matching facts of a request (`RequestFacts`). -/
inductive RequestFacts
  | Method (m : RStr)
  | PathAndQuery (p : RStr)
  | Body (content_type : RStr) (data : List Nat)
  | Headers (hs : List (RStr × RStr))
deriving DecidableEq

/-- `RequestFacts::matches_type`: discriminant equality. -/
def RequestFacts.matches_type : RequestFacts → RequestFacts → Bool
  | .Method _, .Method _ => true
  | .PathAndQuery _, .PathAndQuery _ => true
  | .Body _ _, .Body _ _ => true
  | .Headers _, .Headers _ => true
  | _, _ => false

/-- One loaded transaction (`ArchivedRequest`). -/
structure ArchivedRequest where
  original_timing : Nat
  facts : List RequestFacts
  response : Response
deriving DecidableEq

/-- `ArchivedRequest::matches`: pair every query fact with the first
stored fact of the same discriminant, ignoring query facts with no
counterpart, and require all pairs equal. -/
def ArchivedRequest.matches (t : ArchivedRequest) (facts : List RequestFacts) : Bool :=
  (facts.filterMap (fun f =>
    (t.facts.find? (fun m => m.matches_type f)).map (fun m => (f, m)))).all
    (fun p => decide (p.1 = p.2))

/-! ## Archive loader (`src/archive/load.rs`) -/

/-- Loader failures: `InvalidMatcher` for unparseable methods or URLs,
and base64 decode failures propagated by `?`. -/
inductive LoadErr
  | invalidMatcher (msg : RStr)
  | decodeFailed
deriving DecidableEq

/-- `request_body_and_encoding` (`load.rs`, textually identical to
`RequestBody::bytes`). -/
def request_body_and_encoding : PostData → Option (List Nat × RStr) := RequestBody.bytes

/-- `response_body_and_encoding` (`load.rs`): absent text is an absent
body; otherwise the text is decoded per the encoding marker. -/
def response_body_and_encoding (c : Content) : Option (Option (List Nat) × RStr) :=
  match c.text with
  | none => some (none, [])
  | some text =>
    let mime := c.mime_type
    match c.encoding with
    | some e =>
      if e = asciiStr "base64" then (base64Decode text).map (fun b => (some b, mime))
      else some (some text, mime)
    | none => some (some text, mime)

/-- `HarLoader::get_facts`: uppercase and revalidate the method, parse
the stored URL and take its path-and-query (empty when absent), and add a
`Body` fact when `postData` is present. -/
def get_facts (r : Request) : Except LoadErr (List RequestFacts) :=
  match method_from_bytes (ascii_to_uppercase r.method) with
  | none => .error (.invalidMatcher r.method)
  | some method =>
    match uriParse r.url with
    | none => .error (.invalidMatcher r.url)
    | some uri =>
      let path := uri.path_and_query.getD []
      match r.post_data with
      | none => .ok [RequestFacts.Method method, RequestFacts.PathAndQuery path]
      | some d =>
        match request_body_and_encoding d with
        | none => .error .decodeFailed
        | some p =>
          .ok [RequestFacts.Method method, RequestFacts.PathAndQuery path,
               RequestFacts.Body p.2 p.1]

/-- `HarLoader::load_entry`: clamp negative timings to zero and keep the
stored response intact. -/
def load_entry (e : Entries) : Except LoadErr ArchivedRequest :=
  let timing := if e.time < 0 then 0 else e.time.toNat
  (get_facts e.request).map (fun facts =>
    { original_timing := timing, facts, response := e.response })

/-- Load a list of entries, stopping at the first failure (the `collect`
of `Result`s in `HarLoader::load`). -/
def loadEntries : List Entries → Except LoadErr (List ArchivedRequest)
  | [] => .ok []
  | e :: rest =>
    match load_entry e, loadEntries rest with
    | .ok a, .ok more => .ok (a :: more)
    | .error err, _ => .error err
    | .ok _, .error err => .error err

/-- `HarLoader::load` after the JSON parse: every entry of the log is
loaded (the serde parse of the file written by `write_to_dir`, an
external crate, is modelled as returning the same log). -/
def loadHar (log : Log) : Except LoadErr (List ArchivedRequest) :=
  loadEntries log.entries

/-- Composition of `write_to_dir` and `HarLoader::load` on the written
file: `none` when nothing is written (empty session) or loading fails. -/
def write_then_load (s : HarSession) : Option (List ArchivedRequest) :=
  match file_hash s with
  | none => none
  | some _ =>
    match loadHar s.har with
    | .error _ => none
    | .ok l => some l
/-- Test vector for the base64 embedding: the binary body of scenario S2. -/
theorem base64Encode_ff_fe_00 : base64Encode [255, 254, 0] = asciiStr "//4A" := by decide


/-! ## Round-trip lemmas for the body and header codecs -/

theorem base64Encode_ne_nil (l : List Nat) (h : l ≠ []) : base64Encode l ≠ [] := by
  rcases l with _ | ⟨a, _ | ⟨b, _ | ⟨c, rest⟩⟩⟩ <;> simp_all [base64Encode]

theorem requestBody_bytes_har (b : List Nat) (mime : RStr) (hb : ∀ x ∈ b, x < 256)
    (hne : b ≠ []) : (RequestBody.har b mime).bind RequestBody.bytes = some (b, mime) := by
  unfold RequestBody.har RequestBody.bytes maybe_encode
  rw [if_neg hne]
  by_cases hv : validUtf8 b
  · simp [hv]
  · simp [hv, base64Decode_base64Encode b hb]

theorem responseBody_hyper_har (b : List Nat) (mime : RStr) (hb : ∀ x ∈ b, x < 256) :
    ResponseBody.hyper (ResponseBody.har b mime) = some (b, if b = [] then [] else mime) := by
  unfold ResponseBody.har ResponseBody.hyper maybe_encode
  by_cases hbe : b = []
  · subst hbe; rfl
  · by_cases hv : validUtf8 b
    · simp [hv, hbe]
    · simp [hv, hbe, base64Encode_ne_nil b hbe, base64Decode_base64Encode b hb]

theorem response_body_decode_har (b : List Nat) (mime : RStr) (hb : ∀ x ∈ b, x < 256) :
    response_body_and_encoding (ResponseBody.har b mime) =
      some (if b = [] then none else some b, if b = [] then [] else mime) := by
  unfold ResponseBody.har response_body_and_encoding maybe_encode
  by_cases hbe : b = []
  · subst hbe; rfl
  · by_cases hv : validUtf8 b
    · simp [hv, hbe]
    · simp [hv, hbe, base64Encode_ne_nil b hbe, base64Decode_base64Encode b hb]

/-- C4: encoding a byte sequence as an archived request body
(`RequestBody::har`, non-empty bodies, any mime type) or response body
(`ResponseBody::har`) and decoding it back (`RequestBody::bytes`,
`ResponseBody::hyper`) returns exactly the original bytes. -/
theorem body_codec_roundtrip (b : List Nat) (mime : RStr) (hb : ∀ x ∈ b, x < 256) :
    (b ≠ [] → (RequestBody.har b mime).bind RequestBody.bytes = some (b, mime)) ∧
    (ResponseBody.hyper (ResponseBody.har b mime)).map Prod.fst = some b := by
  refine ⟨fun hne => requestBody_bytes_har b mime hb hne, ?_⟩
  rw [responseBody_hyper_har b mime hb]
  rfl

/-- Witness for C4 at the binary body `FF FE 00` with mime type
`application/octet-stream`. -/
theorem body_codec_roundtrip_witness :
    ((RequestBody.har [255, 254, 0] (asciiStr "application/octet-stream")).bind
        RequestBody.bytes = some ([255, 254, 0], asciiStr "application/octet-stream")) ∧
    (ResponseBody.hyper (ResponseBody.har [255, 254, 0]
        (asciiStr "application/octet-stream"))).map Prod.fst = some [255, 254, 0] :=
  ⟨(body_codec_roundtrip [255, 254, 0] _ (by decide)).1 (by decide),
   (body_codec_roundtrip [255, 254, 0] _ (by decide)).2⟩

/-- C2 (code bug): the recording pipeline converts header values with
`HeaderValue::to_str().unwrap()` in `headers_to_har`, which panics on the
non-UTF-8 value `FF` instead of archiving its base64 encoding; the codec
`Header::har` in `convert.rs` implements the claimed encoding (base64
value, comment `base64`) and `Header::hyper` decodes it back to the
original bytes, but the recorder never calls it. -/
theorem recorded_header_nonutf8_panics :
    headers_to_har [(asciiStr "x-bin", [255])] = none ∧
    record_request HarSession.new
      ⟨asciiStr "GET", ⟨none, none, some (asciiStr "/p")⟩, HttpVer.http11,
       [(asciiStr "x-bin", [255])]⟩ [] = none ∧
    record_response HarSession.new ⟨200, HttpVer.http11, [(asciiStr "x-bin", [255])]⟩ [] =
      none ∧
    Header.har (asciiStr "x-bin") [255] =
      ⟨asciiStr "x-bin", asciiStr "/w==", some (asciiStr "base64")⟩ ∧
    Header.hyper ⟨asciiStr "x-bin", asciiStr "/w==", some (asciiStr "base64")⟩ =
      some (asciiStr "x-bin", [255]) := by
  refine ⟨by decide, by decide, by decide, by decide, by decide⟩

/-! ## HTTP version mapping (claim C7) -/

/-- C7 counterexample: `version_from_string` (`HttpVersion::hyper`)
succeeds on the string `http/2`, which is not one of the four supported
strings, so it does not fail on every other input. -/
theorem http_version_lowercase_accepted :
    HttpVersion.hyper (asciiStr "http/2") = .ok HttpVer.http2 ∧
    asciiStr "http/2" ≠ asciiStr "HTTP/0.9" ∧ asciiStr "http/2" ≠ asciiStr "HTTP/1.0" ∧
    asciiStr "http/2" ≠ asciiStr "HTTP/1.1" ∧ asciiStr "http/2" ≠ asciiStr "HTTP/2" := by
  decide

/-- C7 amended: `version_from_string` uppercases its input first, so it
succeeds exactly on the strings whose ASCII uppercasing is one of
`HTTP/0.9`, `HTTP/1.0`, `HTTP/1.1`, `HTTP/2`, returning the
corresponding version (hence inverting `version_to_string` on the
supported set), and fails with `InvalidHttpVersion` carrying the input on
every other string. -/
theorem http_version_mapping (s : RStr) :
    (∀ v : HttpVer, HttpVersion.hyper (HttpVersion.har v) = .ok v) ∧
    (∀ v : HttpVer, HttpVersion.hyper s = .ok v ↔ ascii_to_uppercase s = HttpVersion.har v) ∧
    ((∀ v : HttpVer, ascii_to_uppercase s ≠ HttpVersion.har v) →
      HttpVersion.hyper s = .error (.InvalidHttpVersion s)) := by
  refine ⟨fun v => by cases v <;> rfl, fun v => ?_, fun hne => ?_⟩
  · unfold HttpVersion.hyper
    split_ifs with h1 h2 h3 h4 <;> cases v <;> simp_all [HttpVersion.har] <;> decide
  · unfold HttpVersion.hyper
    split_ifs with h1 h2 h3 h4
    · exact absurd h1 (hne .http09)
    · exact absurd h2 (hne .http10)
    · exact absurd h3 (hne .http11)
    · exact absurd h4 (hne .http2)
    · rfl

/-- Witness for C7: a round trip, a case-insensitive success, and a
failing input, produced by the amended theorem. -/
theorem http_version_mapping_witness :
    HttpVersion.hyper (HttpVersion.har HttpVer.http2) = .ok HttpVer.http2 ∧
    (HttpVersion.hyper (asciiStr "hTtP/1.1") = .ok HttpVer.http11 ↔
      ascii_to_uppercase (asciiStr "hTtP/1.1") = HttpVersion.har HttpVer.http11) ∧
    HttpVersion.hyper (asciiStr "SPDY/3") = .error (.InvalidHttpVersion (asciiStr "SPDY/3")) :=
  ⟨(http_version_mapping (asciiStr "x")).1 _, (http_version_mapping _).2.1 _,
   (http_version_mapping (asciiStr "SPDY/3")).2.2 (by intro v; cases v <;> decide)⟩

/-! ## Query parsing (claim C8) -/

/-- C8 counterexample: `query_to_list` (`Query::har`) on the present but
empty query returns one entry with empty name and empty value, not the
empty list. -/
theorem query_empty_string_entry :
    Query.har (some []) = [⟨[], [], none⟩] ∧ Query.har (some []) ≠ [] := by decide

theorem queryHarPair_eq (pair : RStr) :
    queryHarPair pair =
      some ⟨(splitFirstAt 61 pair).1, ((splitFirstAt 61 pair).2).getD [], none⟩ := by
  rcases hsp : splitFirstAt 61 pair with ⟨k, _ | v⟩ <;>
    simp [queryHarPair, splitnTwo, hsp]

/-- C8 amended: `query_to_list` returns the empty list for an absent
query; a present but empty query yields a single entry with empty name
and empty value; in general the raw query is split on `&` and each piece
on its first `=`, a missing value yielding the empty string (so the name
of a piece `=v` is empty), with names and values kept byte-exact (no
percent-decoding). -/
theorem query_parsing (q : RStr) :
    Query.har none = [] ∧
    Query.har (some []) = [⟨[], [], none⟩] ∧
    Query.har (some q) = (splitOnByte 38 q).map (fun pair =>
      ⟨(splitFirstAt 61 pair).1, ((splitFirstAt 61 pair).2).getD [], none⟩) := by
  refine ⟨rfl, by decide, ?_⟩
  unfold Query.har
  have hgen : ∀ l : List RStr, l.filterMap queryHarPair = l.map (fun pair =>
      ⟨(splitFirstAt 61 pair).1, ((splitFirstAt 61 pair).2).getD [], none⟩) := by
    intro l
    induction l with
    | nil => rfl
    | cons a t ih => simp [List.filterMap_cons, queryHarPair_eq a, ih]
  exact hgen _

/-! ## Matching rule (claim C3) -/

/-- C3: a stored transaction matches a query facts list iff every query
fact whose discriminant also appears among the stored facts equals the
stored fact of that discriminant (the first stored fact of the same
discriminant, as `find?` selects it); facts of discriminants absent from
the stored transaction are ignored, and the empty query matches every
stored transaction. -/
theorem matcher_rule (t : ArchivedRequest) (q : List RequestFacts) :
    (ArchivedRequest.matches t q = true ↔
      ∀ f ∈ q, ∀ m, t.facts.find? (fun s => s.matches_type f) = some m → f = m) ∧
    ArchivedRequest.matches t [] = true := by
  constructor
  · unfold ArchivedRequest.matches
    induction q with
    | nil => simp
    | cons f rest ih =>
      rw [List.filterMap_cons]
      cases hf : t.facts.find? (fun m => m.matches_type f) with
      | none =>
        simp only [Option.map] at ih ⊢
        rw [ih]
        constructor
        · intro h g hg m hm
          rcases List.mem_cons.mp hg with rfl | hg'
          · rw [hf] at hm
            exact Option.noConfusion hm
          · exact h g hg' m hm
        · intro h g hg m hm
          exact h g (List.mem_cons_of_mem f hg) m hm
      | some m0 =>
        simp only [Option.map, List.all_cons, Bool.and_eq_true] at ih ⊢
        rw [ih]
        constructor
        · rintro ⟨hd, tl⟩ g hg m hm
          rcases List.mem_cons.mp hg with rfl | hg'
          · rw [hf] at hm
            injection hm with hmm
            subst hmm
            exact of_decide_eq_true hd
          · exact tl g hg' m hm
        · intro h
          exact ⟨decide_eq_true (h f (List.mem_cons_self f rest) m0 hf),
            fun g hg m hm => h g (List.mem_cons_of_mem f hg) m hm⟩
  · rfl

/-- Sample archived content for witnesses. -/
def sampleContent : Content := ⟨2, none, asciiStr "text/plain", some (asciiStr "hi"), none, none⟩

/-- Sample archived response for witnesses. -/
def sampleResponse : Response :=
  ⟨none, 200, asciiStr "200", asciiStr "HTTP/1.1", [], [⟨asciiStr "content-type",
    asciiStr "text/plain", none⟩], sampleContent, [], -1, -1, none⟩

/-- Sample loaded transaction for witnesses. -/
def sampleArchived : ArchivedRequest :=
  ⟨0, [RequestFacts.Method (asciiStr "GET"), RequestFacts.PathAndQuery (asciiStr "/hello")],
   sampleResponse⟩

/-- Witness for C3 at a concrete stored transaction and query. -/
theorem matcher_rule_witness :
    (ArchivedRequest.matches sampleArchived
        [RequestFacts.Method (asciiStr "GET"), RequestFacts.Headers []] = true ↔
      ∀ f ∈ [RequestFacts.Method (asciiStr "GET"), RequestFacts.Headers []],
        ∀ m, sampleArchived.facts.find? (fun s => s.matches_type f) = some m → f = m) ∧
    ArchivedRequest.matches sampleArchived [] = true :=
  matcher_rule sampleArchived [RequestFacts.Method (asciiStr "GET"), RequestFacts.Headers []]

/-! ## File naming (claim C9) -/

theorem isPrefixOf_append_self (p l : List Nat) : p.isPrefixOf (p ++ l) = true := by
  induction p with
  | nil => simp [List.isPrefixOf]
  | cons a t ih => simp [List.isPrefixOf, ih]

/-- Lowercase hex digit bytes, the alphabet of fingerprint renderings. -/
def isLowerHexByte (b : Nat) : Bool := (48 ≤ b && b ≤ 57) || (97 ≤ b && b ≤ 102)

theorem removeAllSubGo_no_hash (fuel : Nat) :
    ∀ l : List Nat, 104 ∉ l → removeAllSubGo [104, 97, 115, 104, 58] fuel l = l := by
  induction fuel with
  | zero => intro l _; rfl
  | succ n ih =>
    intro l hl
    cases l with
    | nil => rfl
    | cons c rest =>
      have hc : ¬(104 = c) := fun hh => hl (hh ▸ List.mem_cons_self c rest)
      have hrest : 104 ∉ rest := fun hh => hl (List.mem_cons_of_mem c hh)
      rw [removeAllSubGo]
      rw [if_neg (by simp [List.isPrefixOf, hc])]
      rw [ih rest hrest]

theorem removeAllSub_hashColon (fp : List Nat) (hfp : 104 ∉ fp) :
    removeAllSub [104, 97, 115, 104, 58] ([104, 97, 115, 104, 58] ++ fp) = fp := by
  unfold removeAllSub
  have hl : (([104, 97, 115, 104, 58] : List Nat) ++ fp).length = fp.length + 4 + 1 := by
    simp
  have hca : ([104, 97, 115, 104, 58] : List Nat) ++ fp =
      104 :: ([97, 115, 104, 58] ++ fp) := rfl
  rw [hl]
  conv =>
    lhs
    rw [hca]
  rw [removeAllSubGo]
  rw [if_pos (show ([104, 97, 115, 104, 58] : List Nat).isPrefixOf
    (104 :: ([97, 115, 104, 58] ++ fp)) = true from isPrefixOf_append_self _ fp)]
  show removeAllSubGo _ _ fp = fp
  exact removeAllSubGo_no_hash _ fp hfp

/-- C9: every file written by `write_to_dir` is named
`normalized_base.fp8.json`, where `fp8` is the first 8 characters of the
stored fingerprint (the request comment with `hash:` removed) and
`normalized_base` replaces every character that is not a word character
or `.` with `-` and truncates to 20 characters when longer; the four
normalization examples hold verbatim. -/
theorem write_to_dir_file_name (s : HarSession) (base : List Char) (e : Entries)
    (rest : List Entries) (fp : RStr)
    (hent : s.har.entries = e :: rest)
    (hcom : e.request.comment = some (asciiStr "hash:" ++ fp))
    (hhex : ∀ c ∈ fp, isLowerHexByte c = true) :
    write_to_dir s base =
      .ok ((normalize_path base ++ ('.' :: (fp.take 8).map Char.ofNat)) ++ ".json".toList,
        s.har) ∧
    normalize_path "/test/./path?q=20".toList = "-test-.-path-q-20".toList ∧
    normalize_path "nOth1ng_in_Her3".toList = "nOth1ng_in_Her3".toList ∧
    normalize_path "this is longer than 20 characters".toList =
      "this-is-longer-than-".toList ∧
    normalize_path "dots.ok".toList = "dots.ok".toList := by
  refine ⟨?_, by decide, by decide, by decide, by decide⟩
  have h104 : 104 ∉ fp := by
    intro hmem
    have := hhex 104 hmem
    simp [isLowerHexByte] at this
  have hhash : asciiStr "hash:" = [104, 97, 115, 104, 58] := by decide
  unfold write_to_dir file_hash
  rw [hent]
  simp only [List.head?, Option.map]
  rw [hcom, hhash]
  dsimp only
  rw [removeAllSub_hashColon fp h104]

/-- Sample recorded request for witnesses, carrying a fingerprint
comment. -/
def sampleRequest : Request :=
  { method := asciiStr "GET", url := asciiStr "http://up.example/hello",
    http_version := asciiStr "HTTP/1.1", cookies := [], headers := [],
    query_string := [], post_data := none, headers_size := -1, body_size := -1,
    comment := some (asciiStr "hash:" ++ asciiStr "0123abcd9999ffff") }

/-- Sample committed entry for witnesses. -/
def sampleEntry : Entries :=
  { pageref := none, started_date_time := asciiStr "0", time := 3,
    request := sampleRequest, response := sampleResponse,
    cache := ⟨none, none⟩,
    timings := ⟨none, none, none, -1, -1, -1, none, none⟩,
    server_ip_address := none, connection := none, comment := none }

/-- Sample committed session for witnesses. -/
def sampleSession : HarSession :=
  { har := { version := asciiStr "1.2",
             creator := { name := asciiStr "Talkboy", version := VERSION, comment := none },
             browser := none, pages := none, entries := [sampleEntry], comment := none },
    start_date := none, request := none, response := none, request_hash := none }

/-- Witness for C9 at a concrete committed session and base name. -/
theorem write_to_dir_file_name_witness :
    write_to_dir sampleSession "GET.-hello".toList =
      .ok ((normalize_path "GET.-hello".toList ++
        ('.' :: ((asciiStr "0123abcd9999ffff").take 8).map Char.ofNat)) ++ ".json".toList,
        sampleSession.har) :=
  (write_to_dir_file_name sampleSession "GET.-hello".toList sampleEntry []
    (asciiStr "0123abcd9999ffff") rfl rfl (by decide)).1

/-! ## Commit state machine (claim C6) -/

theorem commit_success (s : HarSession) (now : Int) (req : Request) (res : Response)
    (sd : Int) (h : RStr)
    (h1 : s.request = some req) (h2 : s.response = some res) (h3 : s.start_date = some sd)
    (h4 : s.request_hash = some h) :
    commit s now = .success h
      { har := { s.har with entries := s.har.entries ++ [built_entry req res sd now] },
        start_date := none, request := none, response := none, request_hash := none } := by
  unfold commit build add_entry
  rw [h1, h2, h3]
  dsimp only
  rw [h4]

/-- C6: `commit` fails with `MissingBoth` when neither request nor
response is recorded, `MissingRequest` when only a response is,
`MissingResponse` when only a request is, and `MissingStart` when both
are recorded but no start timestamp was captured; `write_to_dir` on a
session with an empty entries log fails with `EmptySession` (writing
nothing); a successful `commit` appends the built entry, clears the
transient request, response and start timestamp, and returns the full
stored fingerprint. -/
theorem commit_state_machine (s : HarSession) (now : Int) :
    (s.request = none → s.response = none → commit s now = .failure .MissingBoth) ∧
    (∀ res, s.request = none → s.response = some res →
      commit s now = .failure .MissingRequest) ∧
    (∀ req, s.request = some req → s.response = none →
      commit s now = .failure .MissingResponse) ∧
    (∀ req res, s.request = some req → s.response = some res → s.start_date = none →
      commit s now = .failure .MissingStart) ∧
    (∀ req res sd h, s.request = some req → s.response = some res →
      s.start_date = some sd → s.request_hash = some h →
      commit s now = .success h
        { har := { s.har with entries := s.har.entries ++ [built_entry req res sd now] },
          start_date := none, request := none, response := none, request_hash := none }) ∧
    (s.har.entries = [] → ∀ base, write_to_dir s base = .error .EmptySession) := by
  refine ⟨?_, ?_, ?_, ?_, ?_, ?_⟩
  · intro h1 h2
    unfold commit build
    rw [h1, h2]
  · intro res h1 h2
    unfold commit build
    rw [h1, h2]
  · intro req h1 h2
    unfold commit build
    rw [h1, h2]
  · intro req res h1 h2 h3
    unfold commit build
    rw [h1, h2, h3]
  · intro req res sd h h1 h2 h3 h4
    exact commit_success s now req res sd h h1 h2 h3 h4
  · intro hent base
    unfold write_to_dir file_hash
    rw [hent]
    rfl

/-- Sample response-only session for witnesses. -/
def sessionRespOnly : HarSession :=
  { HarSession.new with response := some sampleResponse }

/-- Sample request-only session for witnesses. -/
def sessionReqOnly : HarSession :=
  { HarSession.new with
      request := some sampleRequest
      request_hash := some (asciiStr "0123abcd9999ffff") }

/-- Sample session with request and response but no start timestamp. -/
def sessionNoStart : HarSession :=
  { sessionReqOnly with response := some sampleResponse }

/-- Sample fully populated session for witnesses. -/
def sessionFull : HarSession :=
  { sessionNoStart with start_date := some 3 }

/-- Witness for C6 exercising all five commit outcomes and the empty
write at concrete sessions. -/
theorem commit_state_machine_witness :
    commit HarSession.new 9 = .failure .MissingBoth ∧
    commit sessionRespOnly 9 = .failure .MissingRequest ∧
    commit sessionReqOnly 9 = .failure .MissingResponse ∧
    commit sessionNoStart 9 = .failure .MissingStart ∧
    commit sessionFull 9 = .success (asciiStr "0123abcd9999ffff")
      { har := { sessionFull.har with
          entries := sessionFull.har.entries ++
            [built_entry sampleRequest sampleResponse 3 9] },
        start_date := none, request := none, response := none, request_hash := none } ∧
    write_to_dir HarSession.new "x".toList = .error .EmptySession :=
  ⟨(commit_state_machine HarSession.new 9).1 rfl rfl,
   (commit_state_machine sessionRespOnly 9).2.1 sampleResponse rfl rfl,
   (commit_state_machine sessionReqOnly 9).2.2.1 sampleRequest rfl rfl,
   (commit_state_machine sessionNoStart 9).2.2.2.1 sampleRequest sampleResponse rfl rfl rfl,
   (commit_state_machine sessionFull 9).2.2.2.2.1 sampleRequest sampleResponse 3
     (asciiStr "0123abcd9999ffff") (by decide) (by decide) (by decide) (by decide),
   (commit_state_machine HarSession.new 9).2.2.2.2.2 rfl "x".toList⟩

/-! ## Recorder call-order freedom (claim C10) -/

/-- C10: `record_request` and `record_response` are plain setters: whether
they succeed, and the request or response they store, depend only on
their input, never on the session state (in particular they succeed
before `start_session`, the order the proxy pipeline uses), each
overwriting any previously stored value while leaving the other
transients untouched; and `commit` succeeds exactly when a request, a
response and a start timestamp are all present at commit time,
regardless of the order in which they were set. -/
theorem recorder_order_free (s₁ s₂ : HarSession) (head : ReqParts) (rhead : ResParts)
    (body rbody : List Nat) (now : Int) :
    ((record_request s₁ head body).isSome ↔ (record_request s₂ head body).isSome) ∧
    ((record_request s₁ head body).map HarSession.request =
      (record_request s₂ head body).map HarSession.request) ∧
    (∀ s', record_request s₁ head body = some s' →
      s'.response = s₁.response ∧ s'.start_date = s₁.start_date ∧ s'.har = s₁.har) ∧
    ((record_response s₁ rhead rbody).isSome ↔ (record_response s₂ rhead rbody).isSome) ∧
    ((record_response s₁ rhead rbody).map HarSession.response =
      (record_response s₂ rhead rbody).map HarSession.response) ∧
    (∀ s', record_response s₁ rhead rbody = some s' →
      s'.request = s₁.request ∧ s'.start_date = s₁.start_date ∧ s'.har = s₁.har) ∧
    ((s₁.request.isSome → s₁.request_hash.isSome) →
      ((∃ h s', commit s₁ now = .success h s') ↔
        (s₁.request.isSome ∧ s₁.response.isSome ∧ s₁.start_date.isSome))) := by
  refine ⟨?_, ?_, ?_, ?_, ?_, ?_, ?_⟩
  · unfold record_request
    cases parse_request_cookies head.headers <;> cases headers_to_har head.headers <;> simp
  · unfold record_request
    cases parse_request_cookies head.headers <;> cases headers_to_har head.headers <;> simp
  · intro s' h
    unfold record_request at h
    cases hck : parse_request_cookies head.headers <;>
        cases hh2 : headers_to_har head.headers <;>
        rw [hck, hh2] at h
    · exact Option.noConfusion h
    · exact Option.noConfusion h
    · exact Option.noConfusion h
    · injection h with h'
      rw [← h']
      exact ⟨rfl, rfl, rfl⟩
  · unfold record_response
    cases parse_response_cookies rhead.headers <;> cases headers_to_har rhead.headers <;> simp
  · unfold record_response
    cases parse_response_cookies rhead.headers <;> cases headers_to_har rhead.headers <;> simp
  · intro s' h
    unfold record_response at h
    cases hck : parse_response_cookies rhead.headers <;>
        cases hh2 : headers_to_har rhead.headers <;>
        rw [hck, hh2] at h
    · exact Option.noConfusion h
    · exact Option.noConfusion h
    · exact Option.noConfusion h
    · injection h with h'
      rw [← h']
      exact ⟨rfl, rfl, rfl⟩
  · intro hinv
    cases hreq : s₁.request with
    | none =>
      cases hres : s₁.response <;> simp [commit, build, hreq, hres]
    | some req =>
      have hhash : ∃ hh, s₁.request_hash = some hh := by
        have := hinv (by rw [hreq]; rfl)
        exact Option.isSome_iff_exists.mp this
      obtain ⟨hh, hh4⟩ := hhash
      cases hres : s₁.response with
      | none => simp [commit, build, hreq, hres]
      | some res =>
        cases hsd : s₁.start_date with
        | none => simp [commit, build, hreq, hres, hsd]
        | some sd =>
          constructor
          · intro _
            exact ⟨rfl, rfl, rfl⟩
          · intro _
            exact ⟨hh, _, commit_success s₁ now req res sd hh hreq hres hsd hh4⟩

/-- Concrete request head shared by witnesses. -/
def headW : ReqParts :=
  ⟨asciiStr "GET",
   ⟨some (asciiStr "http"), some (asciiStr "up.example"), some (asciiStr "/hello?q=1")⟩,
   HttpVer.http11, [(asciiStr "content-type", asciiStr "text/plain")]⟩

/-- Concrete response head shared by witnesses. -/
def rheadW : ResParts :=
  ⟨200, HttpVer.http11, [(asciiStr "content-type", asciiStr "text/plain")]⟩

/-- Witness for C10: recording succeeds identically from a populated and
from a fresh session, and commit success at a populated session is
equivalent to all three transients being present. -/
theorem recorder_order_free_witness :
    ((record_request sessionFull headW (asciiStr "hi")).isSome ↔
      (record_request HarSession.new headW (asciiStr "hi")).isSome) ∧
    ((∃ h s', commit sessionFull 9 = .success h s') ↔
      (sessionFull.request.isSome ∧ sessionFull.response.isSome ∧
        sessionFull.start_date.isSome)) :=
  ⟨(recorder_order_free sessionFull HarSession.new headW rheadW (asciiStr "hi") [] 9).1,
   (recorder_order_free sessionFull HarSession.new headW rheadW (asciiStr "hi") [] 9
     ).2.2.2.2.2.2 (by decide)⟩

/-! ## Transaction fingerprint (claim C1) -/

/-- C1 counterexample: `record_request` digests the full URI rendering,
not the bare path-and-query; at a request for `/p` proxied to authority
`a.example` the stored fingerprint is the digest of
`GET http://a.example/p HTTP/1.1` (concatenated without separators) and
differs from the digest the claim specifies, and changing only the
authority to `b.example` changes the fingerprint. -/
theorem fingerprint_includes_authority :
    (record_request HarSession.new
        ⟨asciiStr "GET",
         ⟨some (asciiStr "http"), some (asciiStr "a.example"), some (asciiStr "/p")⟩,
         HttpVer.http11, []⟩ []).map HarSession.request_hash =
      some (some (sha256Hex (asciiStr "GEThttp://a.example/pHTTP/1.1"))) ∧
    sha256Hex (asciiStr "GEThttp://a.example/pHTTP/1.1") ≠
      sha256Hex (asciiStr "GET" ++ asciiStr "/p" ++ asciiStr "HTTP/1.1" ++ []) ∧
    (record_request HarSession.new
        ⟨asciiStr "GET",
         ⟨some (asciiStr "http"), some (asciiStr "b.example"), some (asciiStr "/p")⟩,
         HttpVer.http11, []⟩ []).map HarSession.request_hash ≠
      (record_request HarSession.new
        ⟨asciiStr "GET",
         ⟨some (asciiStr "http"), some (asciiStr "a.example"), some (asciiStr "/p")⟩,
         HttpVer.http11, []⟩ []).map HarSession.request_hash := by
  refine ⟨by decide, by decide, by decide⟩

/-- C1 amended: the fingerprint stored by `record_request` (both in
`request_hash` and in the request comment after `hash:`) is the
lowercase-hex SHA-256 digest of `method || url || http_version_string ||
body_bytes` concatenated without separators, where `url` is the full
rendering of the request URI (scheme and authority included when
present, as in the proxied requests the pipeline records); consequently
two recorded requests agreeing on method, full URL string, version and
body receive the same fingerprint. -/
theorem fingerprint_of_record_request (s : HarSession) (head : ReqParts) (body : List Nat)
    (s' : HarSession) (h : record_request s head body = some s') :
    s'.request_hash = some (sha256Hex (head.method ++ uriToString head.uri ++
      string_for_http_version head.version ++ body)) ∧
    (∀ r, s'.request = some r →
      r.comment = some (asciiStr "hash:" ++ sha256Hex (head.method ++ uriToString head.uri ++
        string_for_http_version head.version ++ body))) ∧
    (∀ (s₂ s₂' : HarSession) (head₂ : ReqParts) (body₂ : List Nat),
      record_request s₂ head₂ body₂ = some s₂' →
      head₂.method = head.method → uriToString head₂.uri = uriToString head.uri →
      head₂.version = head.version → body₂ = body →
      s₂'.request_hash = s'.request_hash) := by
  have inv : ∀ (t t' : HarSession) (hd : ReqParts) (bd : List Nat),
      record_request t hd bd = some t' →
      t'.request_hash = some (sha256Hex (hd.method ++ uriToString hd.uri ++
        string_for_http_version hd.version ++ bd)) ∧
      ∀ r, t'.request = some r →
        r.comment = some (asciiStr "hash:" ++ sha256Hex (hd.method ++ uriToString hd.uri ++
          string_for_http_version hd.version ++ bd)) := by
    intro t t' hd bd hrec
    unfold record_request at hrec
    cases hck : parse_request_cookies hd.headers <;>
        cases hh2 : headers_to_har hd.headers <;>
        rw [hck, hh2] at hrec
    · exact Option.noConfusion hrec
    · exact Option.noConfusion hrec
    · exact Option.noConfusion hrec
    · injection hrec with h'
      rw [← h']
      refine ⟨rfl, fun r hr => ?_⟩
      injection hr with hr'
      rw [← hr']
      rfl
  refine ⟨(inv s s' head body h).1, (inv s s' head body h).2, ?_⟩
  intro s₂ s₂' head₂ body₂ h₂ hm hu hv hb
  rw [(inv s₂ s₂' head₂ body₂ h₂).1, (inv s s' head body h).1, hm, hu, hv, hb]

/-- Witness for C1 at a concrete recorded request. -/
theorem fingerprint_of_record_request_witness :
    (record_request HarSession.new headW (asciiStr "hi")).map HarSession.request_hash =
      some (some (sha256Hex (headW.method ++ uriToString headW.uri ++
        string_for_http_version headW.version ++ asciiStr "hi"))) := by
  obtain ⟨s', hs'⟩ := Option.isSome_iff_exists.mp
    (show (record_request HarSession.new headW (asciiStr "hi")).isSome from by decide)
  rw [hs']
  simp only [Option.map]
  rw [(fingerprint_of_record_request HarSession.new headW (asciiStr "hi") s' hs').1]

/-! ## Write-then-load round trip (claim C5) -/

theorem record_request_some_inv (s s' : HarSession) (head : ReqParts) (body : List Nat)
    (h : record_request s head body = some s') :
    ∃ cs hs, parse_request_cookies head.headers = some cs ∧
      headers_to_har head.headers = some hs ∧
      s' = { s with
        request := some (recorded_request head body cs hs)
        request_hash := some (fingerprint_of head body) } := by
  unfold record_request at h
  cases hck : parse_request_cookies head.headers <;>
      cases hh2 : headers_to_har head.headers <;> rw [hck, hh2] at h
  · exact Option.noConfusion h
  · exact Option.noConfusion h
  · exact Option.noConfusion h
  · injection h with h'
    exact ⟨_, _, rfl, rfl, h'.symm⟩

theorem record_response_some_inv (s s' : HarSession) (rhead : ResParts) (rbody : List Nat)
    (h : record_response s rhead rbody = some s') :
    ∃ cs hs, parse_response_cookies rhead.headers = some cs ∧
      headers_to_har rhead.headers = some hs ∧
      s' = { s with response := some (recorded_response rhead rbody cs hs) } := by
  unfold record_response at h
  cases hck : parse_response_cookies rhead.headers <;>
      cases hh2 : headers_to_har rhead.headers <;> rw [hck, hh2] at h
  · exact Option.noConfusion h
  · exact Option.noConfusion h
  · exact Option.noConfusion h
  · injection h with h'
    exact ⟨_, _, rfl, rfl, h'.symm⟩

theorem headerValueToStr_some (v w : RStr) (h : headerValueToStr v = some w) : w = v := by
  unfold headerValueToStr at h
  split at h
  · injection h with h'
    exact h'.symm
  · exact Option.noConfusion h

theorem traverseOption_some_map (f : α → Option β) (g : α → β)
    (hfg : ∀ a b, f a = some b → b = g a) :
    ∀ (l : List α) (res : List β), traverseOption f l = some res → res = l.map g := by
  intro l
  induction l with
  | nil =>
    intro res h
    injection h with h'
    rw [← h']
    rfl
  | cons a t ih =>
    intro res h
    unfold traverseOption at h
    cases hfa : f a <;> rw [hfa] at h
    · exact Option.noConfusion h
    · cases ht : traverseOption f t <;> rw [ht] at h
      · exact Option.noConfusion h
      · injection h with h'
        rw [← h', hfg a _ hfa, ih _ ht]
        rfl

theorem headers_to_har_some (m : HeaderPairs) (hs : List HarHeader)
    (h : headers_to_har m = some hs) :
    hs = m.map (fun p => ⟨p.1, p.2, none⟩) := by
  unfold headers_to_har at h
  refine traverseOption_some_map _ _ ?_ m hs h
  intro p b hb
  cases hv : headerValueToStr p.2 <;> rw [hv] at hb
  · exact Option.noConfusion hb
  · injection hb with hb'
    rw [← hb', headerValueToStr_some p.2 _ hv]

theorem request_body_to_har_some (body : List Nat) (mime : RStr) (hne : body ≠ []) :
    ∃ pd, request_body_to_har body mime = some pd := by
  unfold request_body_to_har RequestBody.har
  rw [if_neg hne]
  exact ⟨_, rfl⟩

theorem get_facts_recorded (head : ReqParts) (body : List Nat)
    (cs : List HarCookie) (hs : List HarHeader)
    (hmethod : method_from_bytes (ascii_to_uppercase head.method) = some head.method)
    (hparse : uriParse (uriToString head.uri) = some head.uri)
    (hbody : ∀ x ∈ body, x < 256) :
    get_facts (recorded_request head body cs hs) =
      .ok ([RequestFacts.Method head.method,
        RequestFacts.PathAndQuery (head.uri.path_and_query.getD [])] ++
        (if body = [] then []
         else [RequestFacts.Body (contentTypeOf head.headers) body])) := by
  unfold get_facts recorded_request
  dsimp only
  rw [hmethod, hparse]
  by_cases hne : body = []
  · subst hne
    rw [show request_body_to_har [] (contentTypeOf head.headers) = none from rfl]
    simp
  · obtain ⟨pd, hpd⟩ := request_body_to_har_some body (contentTypeOf head.headers) hne
    rw [hpd]
    have hbytes : request_body_and_encoding pd = some (body, contentTypeOf head.headers) := by
      have h2 := requestBody_bytes_har body (contentTypeOf head.headers) hbody hne
      have hpd2 : RequestBody.har body (contentTypeOf head.headers) = some pd := hpd
      rw [hpd2] at h2
      exact h2
    dsimp only
    rw [hbytes]
    simp [hne]

theorem write_then_load_single (s : HarSession) (e : Entries) (t : ArchivedRequest)
    (hent : s.har.entries = [e])
    (hl : load_entry e = .ok t) : write_then_load s = some [t] := by
  unfold write_then_load loadHar file_hash
  rw [hent]
  simp only [List.head?, Option.map]
  simp only [loadEntries]
  rw [hl]

/-- C5: recording one transaction into a fresh session, committing it,
writing the archive and loading it back yields exactly one archived
transaction whose method, URL-derived path-and-query, request body bytes
(with content type), response status, response headers (by name and
value) and response body bytes equal those recorded; the hypotheses say
the recording steps succeeded (header values visible ASCII, cookies
parseable), the method is an uppercase token, the URL round-trips
through the URI parser, and the bodies are byte sequences. -/
theorem record_write_load_roundtrip
    (head : ReqParts) (rhead : ResParts) (body rbody : List Nat)
    (t0 now : Int) (s1 s3 s4 : HarSession) (fp : RStr)
    (hreq : record_request HarSession.new head body = some s1)
    (hresp : record_response (start_session s1 t0) rhead rbody = some s3)
    (hcommit : commit s3 now = .success fp s4)
    (hmethod : method_from_bytes (ascii_to_uppercase head.method) = some head.method)
    (hparse : uriParse (uriToString head.uri) = some head.uri)
    (hbody : ∀ x ∈ body, x < 256)
    (hrbody : ∀ x ∈ rbody, x < 256) :
    ∃ t, write_then_load s4 = some [t] ∧
      t.facts = [RequestFacts.Method head.method,
          RequestFacts.PathAndQuery (head.uri.path_and_query.getD [])] ++
        (if body = [] then []
         else [RequestFacts.Body (contentTypeOf head.headers) body]) ∧
      t.response.status = (rhead.status : Int) ∧
      t.response.headers.map (fun hh => (hh.name, hh.value)) = rhead.headers ∧
      (response_body_and_encoding t.response.content).map (fun p => p.1.getD []) =
        some rbody := by
  obtain ⟨cs, hs, hck, hh, hs1⟩ := record_request_some_inv _ _ _ _ hreq
  obtain ⟨rcs, rhs, hrck, hrh, hs3⟩ := record_response_some_inv _ _ _ _ hresp
  have h1 : s3.request = some (recorded_request head body cs hs) := by
    rw [hs3, hs1]
    rfl
  have h2 : s3.response = some (recorded_response rhead rbody rcs rhs) := by
    rw [hs3]
  have h3 : s3.start_date = some t0 := by
    rw [hs3]
    rfl
  have h4 : s3.request_hash = some (fingerprint_of head body) := by
    rw [hs3, hs1]
    rfl
  have h5 : s3.har = HarSession.new.har := by
    rw [hs3, hs1]
    rfl
  have hc := commit_success s3 now (recorded_request head body cs hs)
    (recorded_response rhead rbody rcs rhs) t0 (fingerprint_of head body) h1 h2 h3 h4
  rw [hc] at hcommit
  injection hcommit with hfp hs4eq
  have hfacts := get_facts_recorded head body cs hs hmethod hparse hbody
  have hload : load_entry (built_entry (recorded_request head body cs hs)
      (recorded_response rhead rbody rcs rhs) t0 now) =
      .ok ⟨if (now - t0 : Int) < 0 then 0 else (now - t0).toNat,
        [RequestFacts.Method head.method,
         RequestFacts.PathAndQuery (head.uri.path_and_query.getD [])] ++
          (if body = [] then []
           else [RequestFacts.Body (contentTypeOf head.headers) body]),
        recorded_response rhead rbody rcs rhs⟩ := by
    unfold load_entry built_entry
    dsimp only
    rw [hfacts]
    rfl
  have hwl : write_then_load s4 = some
      [⟨if (now - t0 : Int) < 0 then 0 else (now - t0).toNat,
        [RequestFacts.Method head.method,
         RequestFacts.PathAndQuery (head.uri.path_and_query.getD [])] ++
          (if body = [] then []
           else [RequestFacts.Body (contentTypeOf head.headers) body]),
        recorded_response rhead rbody rcs rhs⟩] := by
    rw [← hs4eq]
    refine write_then_load_single _ _ _ ?_ hload
    show s3.har.entries ++ _ = _
    rw [h5]
    rfl
  refine ⟨_, hwl, rfl, rfl, ?_, ?_⟩
  · show rhs.map (fun hh => (hh.name, hh.value)) = rhead.headers
    rw [headers_to_har_some rhead.headers rhs hrh]
    have hmm : ∀ l : HeaderPairs,
        (l.map (fun p => (⟨p.1, p.2, none⟩ : HarHeader))).map
          (fun hh => (hh.name, hh.value)) = l := by
      intro l
      induction l with
      | nil => rfl
      | cons a t ih => simp [ih]
    exact hmm rhead.headers
  · show (response_body_and_encoding
      (response_body_to_har rbody (contentTypeOf rhead.headers))).map
        (fun p => p.1.getD []) = some rbody
    have hb : response_body_and_encoding
        (response_body_to_har rbody (contentTypeOf rhead.headers)) =
        some (if rbody = [] then none else some rbody,
          if rbody = [] then [] else contentTypeOf rhead.headers) :=
      response_body_decode_har rbody (contentTypeOf rhead.headers) hrbody
    rw [hb]
    by_cases hrb : rbody = [] <;> simp [hrb]

/-- Session after recording a concrete GET request (computed). -/
def s1W : HarSession :=
  (record_request HarSession.new headW (asciiStr "hi")).getD HarSession.new

/-- Session after recording the concrete upstream response (computed). -/
def s3W : HarSession :=
  (record_response (start_session s1W 5) rheadW (asciiStr "ok")).getD HarSession.new

/-- Session after committing the concrete transaction (computed). -/
def s4W : HarSession :=
  match commit s3W 9 with
  | .success _ s => s
  | _ => HarSession.new

/-- Fingerprint returned by the concrete commit (computed). -/
def fpW : RStr :=
  match commit s3W 9 with
  | .success h _ => h
  | _ => []

/-- Witness for C5: the concrete recorded transaction loads back with the
recorded method, path-and-query, body and content type. -/
theorem record_write_load_roundtrip_witness :
    (write_then_load s4W).map (List.map ArchivedRequest.facts) =
      some [[RequestFacts.Method (asciiStr "GET"),
             RequestFacts.PathAndQuery (asciiStr "/hello?q=1"),
             RequestFacts.Body (asciiStr "text/plain") (asciiStr "hi")]] := by
  obtain ⟨t, hw, hf, -, -, -⟩ :=
    record_write_load_roundtrip headW rheadW (asciiStr "hi") (asciiStr "ok") 5 9 s1W s3W s4W
      fpW (by decide) (by decide) (by decide) (by decide) (by decide) (by decide) (by decide)
  rw [hw]
  simp only [Option.map, List.map]
  rw [hf]
  decide

end Talkboy
